import Mathlib

/-!
Verification of the goxkit/otel OTLP gRPC connection-construction policy.

The Go source (src/otlpgrpc/gprc.go and src/otlp_grpc/gprc.go) is shallowly
embedded below: Go strings become Lean `String` (with the character-level
parsing done on `List Char`), the Go `map[string]string` becomes an
association list with unique keys and last-write-wins insertion, `time.Duration`
values become `Int` nanoseconds, and the external gRPC library constructor
`grpc.NewClient` becomes an explicit function parameter returning
`Except String γ`.
-/

/-- Model of Go's whitespace predicate used by `strings.TrimSpace`, covering the
Latin-1 range of `unicode.IsSpace` (tab, newline, vertical tab, form feed,
carriage return, space, NEL, NBSP). -/
def goIsSpace (c : Char) : Bool :=
  c = ' ' || c = '\t' || c = '\n' || c = '\x0B' || c = '\x0C' || c = '\r' ||
  c = '\u0085' || c = '\u00A0'

/-- Model of Go `strings.TrimSpace` on a character list: drop leading and
trailing whitespace. -/
def trimSpace (l : List Char) : List Char :=
  ((l.dropWhile goIsSpace).reverse.dropWhile goIsSpace).reverse

/-- Model of Go `strings.Split(s, sep)` for a one-character separator:
split at every occurrence of `sep`; the result is never empty, and splitting
the empty list gives `[[]]`, as in Go. -/
def splitOnChar (sep : Char) : List Char → List (List Char)
  | [] => [[]]
  | c :: cs =>
    if c = sep then [] :: splitOnChar sep cs
    else
      match splitOnChar sep cs with
      | [] => [[c]]
      | p :: ps => (c :: p) :: ps

/-- Model of Go `strings.SplitN(s, sep, 2)` for a one-character separator:
split at the first occurrence of `sep` only, yielding one part when `sep` is
absent and two parts otherwise. -/
def splitN2 (sep : Char) : List Char → List (List Char)
  | [] => [[]]
  | c :: cs =>
    if c = sep then [[], cs]
    else
      match splitN2 sep cs with
      | [] => [[c]]
      | [p] => [c :: p]
      | p :: q :: _ => [c :: p, q]

/-- Model of a write `h[key] = value` into a Go `map[string]string`,
on an association list with unique keys: overwrite the existing binding
if the key is present, append otherwise (last write wins). -/
def mapInsert (m : List (String × String)) (k v : String) :
    List (String × String) :=
  if m.any (fun p => p.1 = k) then
    m.map (fun p => if p.1 = k then (k, v) else p)
  else
    m ++ [(k, v)]

/-- The loop body of `newPerRPCCredentials`'s header parsing
(src/otlpgrpc/gprc.go lines 84-93): split the entry at the first `=`;
when it has two parts, trim both, and insert unless the trimmed key is
empty. Entries without `=` or with an empty key are dropped silently. -/
def processEntry (m : List (String × String)) (kv : List Char) :
    List (String × String) :=
  match splitN2 '=' kv with
  | [p0, p1] =>
    let key := trimSpace p0
    let value := trimSpace p1
    if key ≠ [] then mapInsert m (String.mk key) (String.mk value) else m
  | _ => m

/-- The header parsing of `newPerRPCCredentials` (src/otlpgrpc/gprc.go lines
80-94): an empty input yields the empty map; otherwise the string is split on
commas and each entry is processed in order. -/
def parseHeaders (s : String) : List (String × String) :=
  if s = "" then []
  else (splitOnChar ',' s.toList).foldl processEntry []

/-- Model of `configs.OTLPConfigs` (the fields read by this package);
durations are `Int` nanoseconds. -/
structure OTLPConfigs where
  endpoint : String
  exporterTLSEnabled : Bool
  exporterHeaders : String
  exporterIdleTimeout : Int
  exporterKeepAliveTime : Int
  exporterKeepAliveTimeout : Int
deriving DecidableEq, Repr

/-- Model of `configs.Configs` (only the `OTLPConfigs` field is read). -/
structure Configs where
  otlpConfigs : OTLPConfigs
deriving DecidableEq, Repr

/-- Transport credentials, as the spec's closed variant: plaintext, or TLS
client credentials with a certificate pool (certificates modelled as opaque
strings) and a server-name override. -/
inductive TransportCredentials where
  | insecure
  | clientTLS (certPool : List String) (serverNameOverride : String)
deriving DecidableEq, Repr

/-- Embedding of `evaluateCredentials` (src/otlpgrpc/gprc.go lines 65-72):
TLS disabled yields insecure credentials; TLS enabled builds a fresh
(empty) certificate pool via `x509.NewCertPool()` and wraps it with an
empty server-name override via `credentials.NewClientTLSFromCert`. -/
def evaluateCredentials (cfgs : Configs) : TransportCredentials :=
  if !cfgs.otlpConfigs.exporterTLSEnabled then
    TransportCredentials.insecure
  else
    let certPool : List String := []
    TransportCredentials.clientTLS certPool ""

/-- Whether the certificate trust pool of a credential object is empty
(vacuously false for insecure credentials). -/
def trustPoolEmpty : TransportCredentials → Bool
  | TransportCredentials.insecure => false
  | TransportCredentials.clientTLS pool _ => pool.isEmpty

/-- Embedding of the `perRPCCredentials` struct (src/otlpgrpc/gprc.go
lines 75-78). -/
structure perRPCCredentials where
  tlsEnabled : Bool
  headers : List (String × String)
deriving DecidableEq, Repr

/-- Embedding of `newPerRPCCredentials` (src/otlpgrpc/gprc.go lines 80-100):
parse the header string and capture the TLS flag. -/
def newPerRPCCredentials (cfgs : Configs) : perRPCCredentials :=
  { tlsEnabled := cfgs.otlpConfigs.exporterTLSEnabled
    headers := parseHeaders cfgs.otlpConfigs.exporterHeaders }

/-- Embedding of `perRPCCredentials.GetRequestMetadata` (src/otlpgrpc/gprc.go
lines 102-104): for any call context and variadic URI list, return the stored
headers and a nil error (`Option.none`). -/
def perRPCCredentials.GetRequestMetadata {α : Type} (h : perRPCCredentials)
    (_ctx : α) (_uri : List String) : List (String × String) × Option String :=
  (h.headers, none)

/-- Embedding of `perRPCCredentials.RequireTransportSecurity`
(src/otlpgrpc/gprc.go lines 106-108). -/
def perRPCCredentials.RequireTransportSecurity (h : perRPCCredentials) : Bool :=
  h.tlsEnabled

/-- One nanosecond-count per Go `time.Second`. -/
def second : Int := 1000000000

/-- Model of `backoff.Config` from the gRPC library; the multiplier is a
rational so that the literal `1.6` is represented exactly. -/
structure BackoffConfig where
  baseDelay : Int
  multiplier : ℚ
  maxDelay : Int
deriving DecidableEq, Repr

/-- Model of `grpc.ConnectParams`. -/
structure ConnectParams where
  backoff : BackoffConfig
  minConnectTimeout : Int
deriving DecidableEq, Repr

/-- Model of `keepalive.ClientParameters` (the two fields set by this
package). -/
structure ClientParameters where
  time : Int
  timeout : Int
deriving DecidableEq, Repr

namespace otlpgrpc

/-- The argument bundle `NewExporterGRPCClient` (src/otlpgrpc/gprc.go) passes
to `grpc.NewClient`: the target endpoint plus each dial option's payload. -/
structure DialConfig where
  target : String
  transportCredentials : TransportCredentials
  perRPCCreds : perRPCCredentials
  idleTimeout : Int
  keepaliveParams : ClientParameters
  connectParams : ConnectParams
deriving DecidableEq, Repr

/-- The dial configuration assembled by `NewExporterGRPCClient`
(src/otlpgrpc/gprc.go lines 40-57), field by field from the source. -/
def exporterDialConfig (cfgs : Configs) : DialConfig :=
  { target := cfgs.otlpConfigs.endpoint
    transportCredentials := evaluateCredentials cfgs
    perRPCCreds := newPerRPCCredentials cfgs
    idleTimeout := cfgs.otlpConfigs.exporterIdleTimeout
    keepaliveParams :=
      { time := cfgs.otlpConfigs.exporterKeepAliveTime
        timeout := cfgs.otlpConfigs.exporterKeepAliveTimeout }
    connectParams :=
      { backoff :=
          { baseDelay := 1 * second
            multiplier := 1.6
            maxDelay := 15 * second }
        minConnectTimeout := 0 } }

/-- Embedding of `NewExporterGRPCClient` (src/otlpgrpc/gprc.go lines 38-63).
The external constructor `grpc.NewClient` is a black box, passed in as
`newClient`; on failure its error is wrapped with the context
`failed to create otel exporter gRPC conn: ` and no connection is returned. -/
def NewExporterGRPCClient {γ : Type} (newClient : DialConfig → Except String γ)
    (cfgs : Configs) : Except String γ :=
  match newClient (exporterDialConfig cfgs) with
  | Except.error err =>
      Except.error ("failed to create otel exporter gRPC conn: " ++ err)
  | Except.ok conn => Except.ok conn

end otlpgrpc

namespace otlp_grpc

/-- The argument bundle the `src/otlp_grpc` variant of
`NewExporterGRPCClient` passes to `grpc.NewClient`: this variant has no
per-call credentials and hard-codes insecure transport credentials. -/
structure DialConfig where
  target : String
  transportCredentials : TransportCredentials
  idleTimeout : Int
  keepaliveParams : ClientParameters
  connectParams : ConnectParams
deriving DecidableEq, Repr

/-- The dial configuration assembled by the `src/otlp_grpc` variant
(src/otlp_grpc/gprc.go lines 35-50), field by field from the source. -/
def exporterDialConfig (cfgs : Configs) : DialConfig :=
  { target := cfgs.otlpConfigs.endpoint
    transportCredentials := TransportCredentials.insecure
    idleTimeout := cfgs.otlpConfigs.exporterIdleTimeout
    keepaliveParams :=
      { time := cfgs.otlpConfigs.exporterKeepAliveTime
        timeout := cfgs.otlpConfigs.exporterKeepAliveTimeout }
    connectParams :=
      { backoff :=
          { baseDelay := 1 * second
            multiplier := 1.6
            maxDelay := 15 * second }
        minConnectTimeout := 0 } }

/-- Embedding of the `src/otlp_grpc` variant of `NewExporterGRPCClient`
(src/otlp_grpc/gprc.go lines 34-57), with the same error wrapping. -/
def NewExporterGRPCClient {γ : Type} (newClient : DialConfig → Except String γ)
    (cfgs : Configs) : Except String γ :=
  match newClient (exporterDialConfig cfgs) with
  | Except.error err =>
      Except.error ("failed to create otel exporter gRPC conn: " ++ err)
  | Except.ok conn => Except.ok conn

end otlp_grpc

/-- A header entry is malformed when it contains no `=`, or its key is empty
after trimming; exactly these entries are discarded by the parsing loop. -/
def entryMalformed (e : List Char) : Bool :=
  match splitN2 '=' e with
  | [p0, _] => trimSpace p0 == []
  | _ => true

/-- Whether `needle` occurs at the very beginning of `hay`. -/
def startsWithChars : List Char → List Char → Bool
  | [], _ => true
  | _ :: _, [] => false
  | n :: ns, h :: hs => n = h && startsWithChars ns hs

/-- Whether `needle` occurs anywhere inside `hay` as a contiguous run. -/
def occursIn (needle : List Char) : List Char → Bool
  | [] => needle.isEmpty
  | h :: hs => startsWithChars needle (h :: hs) || occursIn needle hs


/-! ## Helper lemmas -/

lemma splitOnChar_of_not_mem {sep : Char} {l : List Char}
    (h : ∀ c ∈ l, c ≠ sep) : splitOnChar sep l = [l] := by
  induction l with
  | nil => rfl
  | cons c cs ih =>
    have hc : ¬(c = sep) := h c (List.mem_cons_self c cs)
    have ih' := ih (fun x hx => h x (List.mem_cons_of_mem c hx))
    simp [splitOnChar, hc, ih']

lemma splitN2_append {sep : Char} {l : List Char} (r : List Char)
    (h : ∀ c ∈ l, c ≠ sep) : splitN2 sep (l ++ sep :: r) = [l, r] := by
  induction l with
  | nil => simp [splitN2]
  | cons c cs ih =>
    have hc : ¬(c = sep) := h c (List.mem_cons_self c cs)
    have ih' := ih (fun x hx => h x (List.mem_cons_of_mem c hx))
    simp [splitN2, hc, ih']

lemma processEntry_of_malformed (m : List (String × String)) (e : List Char)
    (h : entryMalformed e = true) : processEntry m e = m := by
  unfold processEntry
  split
  · rename_i p0 p1 heq
    unfold entryMalformed at h
    rw [heq] at h
    simp only [beq_iff_eq] at h
    simp [h]
  · rfl

lemma foldl_processEntry_of_malformed {es : List (List Char)}
    (h : ∀ e ∈ es, entryMalformed e = true) (m : List (String × String)) :
    es.foldl processEntry m = m := by
  induction es generalizing m with
  | nil => rfl
  | cons e es ih =>
    rw [List.foldl_cons,
      processEntry_of_malformed m e (h e (List.mem_cons_self e es))]
    exact ih (fun x hx => h x (List.mem_cons_of_mem e hx)) m

lemma parseHeaders_of_ne_empty {s : String} (hs : ¬(s = "")) :
    parseHeaders s = (splitOnChar ',' s.toList).foldl processEntry [] := by
  unfold parseHeaders
  rw [if_neg hs]

lemma toList_append (a b : String) : (a ++ b).toList = a.toList ++ b.toList :=
  String.data_append a b

lemma lookup_map_overwrite {k v : String} (m : List (String × String))
    (hm : m.any (fun p => p.1 = k) = true) :
    List.lookup k (m.map (fun p => if p.1 = k then (k, v) else p)) = some v := by
  induction m with
  | nil => simp at hm
  | cons p ms ih =>
    rw [List.map_cons]
    by_cases hp : p.1 = k
    · rw [if_pos hp]
      simp [List.lookup]
    · rw [if_neg hp]
      have hm' : ms.any (fun q => q.1 = k) = true := by
        simp only [List.any_cons, hp] at hm
        simpa using hm
      have hk : (k == p.1) = false := by
        simp only [beq_eq_false_iff_ne]
        exact fun hkp => hp hkp.symm
      simp only [List.lookup, hk]
      exact ih hm'

lemma lookup_append_new {k v : String} (m : List (String × String))
    (hm : m.any (fun p => p.1 = k) = false) :
    List.lookup k (m ++ [(k, v)]) = some v := by
  induction m with
  | nil => simp [List.lookup]
  | cons p ms ih =>
    simp only [List.any_cons, Bool.or_eq_false_iff] at hm
    have hp : ¬(p.1 = k) := by simpa using hm.1
    have hk : (k == p.1) = false := by
      simp [beq_eq_false_iff_ne]
      exact fun hkp => hp hkp.symm
    simp [List.lookup, hk]
    exact ih hm.2

lemma parseHeaders_key_eq_tail (k : String) (tail : List Char)
    (h1 : trimSpace k.toList ≠ [])
    (h2 : ∀ c ∈ k.toList, c ≠ ',' ∧ c ≠ '=')
    (h3 : ∀ c ∈ tail, c ≠ ',') :
    parseHeaders (k ++ String.mk ('=' :: tail)) =
      [(String.mk (trimSpace k.toList), String.mk (trimSpace tail))] := by
  have htl : (k ++ String.mk ('=' :: tail)).toList = k.toList ++ '=' :: tail := by
    rw [toList_append]; rfl
  have hne : ¬(k ++ String.mk ('=' :: tail)) = "" := by
    intro hcontra
    have hdata : (k ++ String.mk ('=' :: tail)).toList = [] := by
      rw [hcontra]; rfl
    rw [htl] at hdata
    exact absurd hdata (by simp)
  rw [parseHeaders_of_ne_empty hne, htl]
  have hnocomma : ∀ c ∈ k.toList ++ '=' :: tail, c ≠ ',' := by
    intro c hc
    rcases List.mem_append.mp hc with h | h
    · exact (h2 c h).1
    · rcases List.mem_cons.mp h with h | h
      · rw [h]; decide
      · exact h3 c h
  rw [splitOnChar_of_not_mem hnocomma]
  show processEntry [] (k.toList ++ '=' :: tail) = _
  unfold processEntry
  rw [splitN2_append tail (fun c hc => (h2 c hc).2)]
  simp only []
  rw [if_pos h1]
  unfold mapInsert
  simp

/-! ## Claim theorems -/

/-- C1: for every construction configuration, `RequireTransportSecurity` on
the per-RPC credentials built by `newPerRPCCredentials` returns exactly the
TLS-enabled flag captured at construction; the credential object is immutable,
so every call in any sequence returns this same value. -/
theorem requireTransportSecurity_matches_tls_flag (cfgs : Configs) :
    (newPerRPCCredentials cfgs).RequireTransportSecurity =
      cfgs.otlpConfigs.exporterTLSEnabled := rfl

/-- C2 (code bug): with the TLS flag set to false `evaluateCredentials`
returns insecure credentials as claimed, but with the flag set to true it
returns TLS client credentials whose certificate trust pool is EMPTY
(`x509.NewCertPool()` is never populated), contradicting the claim that the
pool is non-empty. -/
theorem evaluateCredentials_tls_empty_pool :
    evaluateCredentials ⟨⟨"localhost:4317", true, "", 0, 0, 0⟩⟩ =
      TransportCredentials.clientTLS [] "" ∧
    trustPoolEmpty
      (evaluateCredentials ⟨⟨"localhost:4317", true, "", 0, 0, 0⟩⟩) = true ∧
    evaluateCredentials ⟨⟨"localhost:4317", false, "", 0, 0, 0⟩⟩ =
      TransportCredentials.insecure :=
  ⟨rfl, rfl, rfl⟩

/-- C3: parsing the header string `a=1, b=2,c = three` yields exactly the
mapping a↦1, b↦2, c↦three: entries split on commas, each entry on its first
`=`, and whitespace around key and value is trimmed. -/
theorem parseHeaders_trims_and_splits :
    parseHeaders "a=1, b=2,c = three" =
      [("a", "1"), ("b", "2"), ("c", "three")] := by decide

/-- C4: only the first `=` of an entry delimits key from value — for every
key (free of `=`) and every remainder, `splitN2` cuts at the first `=` and
leaves the rest, `=`s included, in the value; concretely, parsing `a=1=extra`
yields exactly a↦1=extra. -/
theorem parseHeaders_splits_on_first_eq :
    (∀ (key rest : List Char), (∀ c ∈ key, c ≠ '=') →
      splitN2 '=' (key ++ '=' :: rest) = [key, rest]) ∧
    parseHeaders "a=1=extra" = [("a", "1=extra")] :=
  ⟨fun _key rest h => splitN2_append rest h, by decide⟩

theorem parseHeaders_splits_on_first_eq_witness :
    (∀ c ∈ ['a'], c ≠ '=') ∧
    splitN2 '=' (['a'] ++ '=' :: "1=extra".toList) =
      [['a'], "1=extra".toList] :=
  ⟨by decide,
    parseHeaders_splits_on_first_eq.1 ['a'] "1=extra".toList (by decide)⟩

/-- C5: when the same key occurs more than once, the last write wins: a map
insertion always makes the inserted value the one subsequent lookups see, and
concretely parsing `a=1,a=2` yields exactly a↦2. -/
theorem parseHeaders_last_write_wins :
    (∀ (m : List (String × String)) (k v : String),
      List.lookup k (mapInsert m k v) = some v) ∧
    parseHeaders "a=1,a=2" = [("a", "2")] := by
  constructor
  · intro m k v
    unfold mapInsert
    cases hany : m.any (fun p => p.1 = k) with
    | true =>
      simp only [hany, if_true]
      exact lookup_map_overwrite m hany
    | false =>
      simp only [hany, Bool.false_eq_true, if_false]
      exact lookup_append_new m hany
  · decide

/-- C6: header parsing is total and never signals an error — the empty string
parses to the empty mapping, and any string all of whose comma-separated
entries are malformed (no `=`, or empty key after trimming) also parses to the
empty mapping, the malformed entries being discarded silently. -/
theorem parseHeaders_total_never_errors :
    parseHeaders "" = [] ∧
    ∀ s : String,
      (∀ e ∈ splitOnChar ',' s.toList, entryMalformed e = true) →
        parseHeaders s = [] := by
  refine ⟨rfl, fun s h => ?_⟩
  by_cases hs : s = ""
  · rw [hs]; rfl
  · rw [parseHeaders_of_ne_empty hs]
    exact foldl_processEntry_of_malformed h []

theorem parseHeaders_total_never_errors_witness :
    (∀ e ∈ splitOnChar ',' "novalue, , =x".toList, entryMalformed e = true) ∧
    parseHeaders "novalue, , =x" = [] :=
  ⟨by decide, parseHeaders_total_never_errors.2 "novalue, , =x" (by decide)⟩

/-- C7: for every construction configuration, every call context, and every
variadic URI list, `GetRequestMetadata` returns the mapping parsed at
construction together with a nil error (`none`) — it can never return a
non-nil error. -/
theorem getRequestMetadata_never_errors {α : Type} (cfgs : Configs) (ctx : α)
    (uris : List String) :
    (newPerRPCCredentials cfgs).GetRequestMetadata ctx uris =
      (parseHeaders cfgs.otlpConfigs.exporterHeaders, (none : Option String)) :=
  rfl

/-- C8: for every caller configuration, both construction variants pass the
fixed backoff curve to the external channel constructor — base delay one
second, multiplier 1.6, maximum delay fifteen seconds, minimum connect
timeout zero — with no dependence on any configuration field. -/
theorem backoff_params_constant (cfgs : Configs) :
    (otlpgrpc.exporterDialConfig cfgs).connectParams =
      { backoff :=
          { baseDelay := 1 * second, multiplier := 1.6, maxDelay := 15 * second }
        minConnectTimeout := 0 } ∧
    (otlp_grpc.exporterDialConfig cfgs).connectParams =
      { backoff :=
          { baseDelay := 1 * second, multiplier := 1.6, maxDelay := 15 * second }
        minConnectTimeout := 0 } ∧
    1 * second = 1000000000 ∧ (15 : Int) * second = 15000000000 ∧
    (1.6 : ℚ) = 8 / 5 :=
  ⟨rfl, rfl, rfl, rfl, by norm_num⟩

/-- C9 counterexample: the error produced when the external constructor
rejects the configuration carries the context
`failed to create otel exporter gRPC conn: `, and the context string the
claim names, `failed to create exporter channel`, occurs nowhere in it. -/
theorem error_context_mismatch :
    otlpgrpc.NewExporterGRPCClient
        (fun _ => (Except.error "boom" : Except String Unit))
        ⟨⟨"://bad", false, "", 0, 0, 0⟩⟩ =
      Except.error "failed to create otel exporter gRPC conn: boom" ∧
    occursIn "failed to create exporter channel".toList
        "failed to create otel exporter gRPC conn: boom".toList = false :=
  ⟨rfl, by decide⟩

/-- C9 amended: when the external channel constructor rejects the supplied
configuration, channel construction (in either variant) returns no channel
handle and a single error wrapping the underlying error with the context
`failed to create otel exporter gRPC conn: `; this is the only error path —
a successful external construction is returned as-is — and the constructor is
invoked exactly once, with no retry. -/
theorem newExporterGRPCClient_error_wrapping :
    (∀ (γ : Type) (newClient : otlpgrpc.DialConfig → Except String γ)
        (cfgs : Configs) (e : String),
      newClient (otlpgrpc.exporterDialConfig cfgs) = Except.error e →
        otlpgrpc.NewExporterGRPCClient newClient cfgs =
          Except.error ("failed to create otel exporter gRPC conn: " ++ e)) ∧
    (∀ (γ : Type) (newClient : otlpgrpc.DialConfig → Except String γ)
        (cfgs : Configs) (c : γ),
      newClient (otlpgrpc.exporterDialConfig cfgs) = Except.ok c →
        otlpgrpc.NewExporterGRPCClient newClient cfgs = Except.ok c) ∧
    (∀ (γ : Type) (newClient : otlp_grpc.DialConfig → Except String γ)
        (cfgs : Configs) (e : String),
      newClient (otlp_grpc.exporterDialConfig cfgs) = Except.error e →
        otlp_grpc.NewExporterGRPCClient newClient cfgs =
          Except.error ("failed to create otel exporter gRPC conn: " ++ e)) := by
  refine ⟨fun γ newClient cfgs e h => ?_, fun γ newClient cfgs c h => ?_,
    fun γ newClient cfgs e h => ?_⟩
  · unfold otlpgrpc.NewExporterGRPCClient
    rw [h]
  · unfold otlpgrpc.NewExporterGRPCClient
    rw [h]
  · unfold otlp_grpc.NewExporterGRPCClient
    rw [h]

theorem newExporterGRPCClient_error_wrapping_witness :
    otlpgrpc.NewExporterGRPCClient
        (fun _ => (Except.error "x" : Except String Unit))
        ⟨⟨"e", false, "", 0, 0, 0⟩⟩ =
      Except.error ("failed to create otel exporter gRPC conn: " ++ "x") ∧
    otlpgrpc.NewExporterGRPCClient
        (fun _ => (Except.ok () : Except String Unit))
        ⟨⟨"e", false, "", 0, 0, 0⟩⟩ = Except.ok () ∧
    otlp_grpc.NewExporterGRPCClient
        (fun _ => (Except.error "x" : Except String Unit))
        ⟨⟨"e", false, "", 0, 0, 0⟩⟩ =
      Except.error ("failed to create otel exporter gRPC conn: " ++ "x") :=
  ⟨newExporterGRPCClient_error_wrapping.1 Unit _ ⟨⟨"e", false, "", 0, 0, 0⟩⟩
      "x" rfl,
    newExporterGRPCClient_error_wrapping.2.1 Unit _ ⟨⟨"e", false, "", 0, 0, 0⟩⟩
      () rfl,
    newExporterGRPCClient_error_wrapping.2.2 Unit _ ⟨⟨"e", false, "", 0, 0, 0⟩⟩
      "x" rfl⟩

/-- C10: an entry whose value is empty after trimming but whose key is
non-empty is kept, not discarded: for every key with a non-empty trim (and no
`,` or `=`, which could not belong to a key), parsing `k=` or `k=   ` yields
the mapping binding the trimmed key to the empty string. -/
theorem empty_value_entries_kept (k : String)
    (h1 : trimSpace k.toList ≠ [])
    (h2 : ∀ c ∈ k.toList, c ≠ ',' ∧ c ≠ '=') :
    parseHeaders (k ++ "=") = [(String.mk (trimSpace k.toList), "")] ∧
    parseHeaders (k ++ "=   ") = [(String.mk (trimSpace k.toList), "")] :=
  ⟨parseHeaders_key_eq_tail k [] h1 h2 (by simp),
    parseHeaders_key_eq_tail k [' ', ' ', ' '] h1 h2 (by decide)⟩

theorem empty_value_entries_kept_witness :
    (trimSpace " key ".toList ≠ [] ∧
      ∀ c ∈ " key ".toList, c ≠ ',' ∧ c ≠ '=') ∧
    parseHeaders (" key " ++ "=") =
      [(String.mk (trimSpace " key ".toList), "")] ∧
    parseHeaders (" key " ++ "=   ") =
      [(String.mk (trimSpace " key ".toList), "")] :=
  ⟨⟨by decide, by decide⟩,
    empty_value_entries_kept " key " (by decide) (by decide)⟩
